import Mathlib

/-
Shallow embedding of the port-forward session manager and its history store
(src/aws_tui/port_history.py and src/aws_tui/app.py).

Timestamps are opaque strings (the code stores ISO strings produced by
utc_now()); the wall clock is passed explicitly to every operation that
reads it.  The sqlite table is a list of rows; the PRIMARY KEY discipline
appears as freshness / no-duplicate hypotheses where a proof needs it.
Child processes are opaque: a process handle is a pid, and the exit code a
poll observes is supplied by the environment as a parameter.
-/

namespace ATui

/-- Python str.strip on a character list: drop whitespace from both ends. -/
def stripList (l : List Char) : List Char :=
  ((l.dropWhile Char.isWhitespace).reverse.dropWhile Char.isWhitespace).reverse

/-- Python str.strip on strings. -/
def pyStrip (s : String) : String :=
  String.mk (stripList s.toList)

/-- One row of the port_forward_history table
(dataclass PortForwardRecord in port_history.py). -/
structure StoredRecord where
  record_id : String
  forward_name : String
  instance_id : String
  instance_name : String
  remote_port : Int
  local_port : Int
  started_at : String
  ended_at : Option String
  status : String
  command : String
  note : Option String
deriving DecidableEq

/-- The keyword changes accepted by PortForwardHistoryStore.update.  An outer
none means the field was not supplied.  record_id can be supplied but is not
in the allowed set, so applyChanges ignores it. -/
structure Changes where
  record_id : Option String
  forward_name : Option String
  instance_id : Option String
  instance_name : Option String
  remote_port : Option Int
  local_port : Option Int
  started_at : Option String
  ended_at : Option (Option String)
  status : Option String
  command : Option String
  note : Option (Option String)
deriving DecidableEq

/-- No keyword arguments supplied. -/
def Changes.empty : Changes :=
  ⟨none, none, none, none, none, none, none, none, none, none, none⟩

/-- True when no allowed column is supplied (update's early-return branch:
either changes is empty, or every supplied key is filtered out by the
allowed set — record_id alone is such a case). -/
def Changes.noColumns (c : Changes) : Bool :=
  c.forward_name.isNone && c.instance_id.isNone && c.instance_name.isNone &&
  c.remote_port.isNone && c.local_port.isNone && c.started_at.isNone &&
  c.ended_at.isNone && c.status.isNone && c.command.isNone && c.note.isNone

/-- Apply the supplied columns to one row (the SET clause of update).
record_id is never in the allowed set, so it is always kept. -/
def applyChanges (c : Changes) (r : StoredRecord) : StoredRecord :=
  { record_id := r.record_id
    forward_name := c.forward_name.getD r.forward_name
    instance_id := c.instance_id.getD r.instance_id
    instance_name := c.instance_name.getD r.instance_name
    remote_port := c.remote_port.getD r.remote_port
    local_port := c.local_port.getD r.local_port
    started_at := c.started_at.getD r.started_at
    ended_at := c.ended_at.getD r.ended_at
    status := c.status.getD r.status
    command := c.command.getD r.command
    note := c.note.getD r.note }

/-- SELECT ... WHERE record_id = ? (first matching row). -/
def findRow (h : List StoredRecord) (id : String) : Option StoredRecord :=
  h.find? (fun r => r.record_id = id)

/-- The default forward name, forward-{local_port}-to-{remote_port}. -/
def defaultName (local_port remote_port : Int) : String :=
  "forward-" ++ toString local_port ++ "-to-" ++ toString remote_port

/-- _coerce_forward_name: keep the stripped value when non-blank, else the
port-derived default. -/
def coerceForwardName (value : String) (local_port remote_port : Int) : String :=
  let stripped := pyStrip value
  if stripped = "" then defaultName local_port remote_port else stripped

/-- _record_from_row: the defensive coercions applied on every read
(forward-name defaulting; empty strings for nullable columns read as null). -/
def recordFromRow (r : StoredRecord) : StoredRecord :=
  { r with
    forward_name := coerceForwardName r.forward_name r.local_port r.remote_port
    ended_at := match r.ended_at with
      | none => none
      | some s => if s = "" then none else some s
    note := match r.note with
      | none => none
      | some s => if s = "" then none else some s }

/-- PortForwardHistoryStore.get. -/
def storeGet (h : List StoredRecord) (id : String) : Option StoredRecord :=
  (findRow h id).map recordFromRow

/-- PortForwardHistoryStore.update: returns the Python return value paired
with the table after the call. -/
def storeUpdate (h : List StoredRecord) (id : String) (c : Changes) :
    Option StoredRecord × List StoredRecord :=
  if c.noColumns then (storeGet h id, h)
  else if h.any (fun r => r.record_id = id) then
    let h' := h.map (fun r => if r.record_id = id then applyChanges c r else r)
    (storeGet h' id, h')
  else (none, h)

/-- The record built by PortForwardHistoryStore.create (insertion appends
this row to the table). -/
def createRecord (newId name inst_id inst_name : String)
    (remote_port local_port : Int) (now status command : String)
    (note : Option String) : StoredRecord :=
  { record_id := newId
    forward_name :=
      (let s := pyStrip name
       if s = "" then defaultName local_port remote_port else s)
    instance_id := inst_id
    instance_name := inst_name
    remote_port := remote_port
    local_port := local_port
    started_at := now
    ended_at := none
    status := status
    command := command
    note := note }

/-- PortForwardHistoryStore._mark_unfinished_as_interrupted: the startup
UPDATE that forces every active/simulated-active row with NULL ended_at to
interrupted. -/
def markUnfinishedAsInterrupted (now : String) (h : List StoredRecord) :
    List StoredRecord :=
  h.map (fun r =>
    if (r.status = "active" || r.status = "simulated-active") && r.ended_at.isNone then
      { r with status := "interrupted", ended_at := some now,
               note := some ("Marked interrupted after app restart.") }
    else r)

/-- list_for_instance: rows of one instance, most recent start first, with
the read coercions applied. -/
def listForInstance (h : List StoredRecord) (inst : String) :
    List StoredRecord :=
  ((h.filter (fun r => r.instance_id = inst)).mergeSort
    (fun a b => b.started_at ≤ a.started_at)).map recordFromRow

/-- list_all: every row, most recent start first, with the read coercions
applied. -/
def listAll (h : List StoredRecord) : List StoredRecord :=
  (h.mergeSort (fun a b => b.started_at ≤ a.started_at)).map recordFromRow

/-! ## Session manager (app.py) -/

/-- dataclass ActivePortForwardRuntime: one Runtime Registry entry.  The
process handle is a pid; none models process = None. -/
structure Runtime where
  record_id : String
  instance_id : String
  process : Option Nat
  simulated : Bool
  stopping : Bool
deriving DecidableEq

/-- dict lookup in active_port_forwards. -/
def regFind (reg : List (String × Runtime)) (id : String) : Option Runtime :=
  (reg.find? (fun e => e.1 = id)).map (fun e => e.2)

/-- dict pop of one key. -/
def regPop (reg : List (String × Runtime)) (id : String) :
    List (String × Runtime) :=
  reg.filter (fun e => !(e.1 = id : Bool))

/-- dict key assignment (keys stay unique). -/
def regInsert (reg : List (String × Runtime)) (id : String) (rt : Runtime) :
    List (String × Runtime) :=
  (id, rt) :: regPop reg id

/-- The state the session manager owns: the history table and the
in-memory active_port_forwards registry. -/
structure AppState where
  history : List StoredRecord
  registry : List (String × Runtime)
deriving DecidableEq

def SIGTERM : Int := 15

def SIGKILL : Int := 9

/-- Python str() of an exit code that may be None. -/
def pyShowExit : Option Int → String
  | none => "None"
  | some n => toString n

/-- Exit-code test in stop_port_forward:
exit_code in (0, None, -SIGTERM, -SIGKILL). -/
def stopStatus (ec : Option Int) : String :=
  if ec = some 0 || ec = none || ec = some (-SIGTERM) || ec = some (-SIGKILL)
  then "stopped" else "failed"

/-- AwsTuiApp.stop_port_forward.  now is the utc_now() reading; exitAfterTerm
is what runtime.process.poll() observes after _terminate_process ran the
escalating termination protocol (the protocol itself only signals the
external process, so its effect on the state is fully captured by this
observed exit code).  Returns the boolean result with the next state. -/
def stopPortForward (σ : AppState) (id : String) (now : String)
    (exitAfterTerm : Option Int) : Bool × AppState :=
  match regFind σ.registry id, storeGet σ.history id with
  | some rt, some _ =>
    if rt.simulated || rt.process.isNone then
      let status := if rt.simulated then "simulated-stopped" else "stopped"
      let c :=
        { Changes.empty with
          status := some status,
          ended_at := some (some now),
          note := some (some ("Stopped by user.")) }
      (true, { history := (storeUpdate σ.history id c).2,
               registry := regPop σ.registry id })
    else
      let status := stopStatus exitAfterTerm
      let c :=
        { Changes.empty with
          status := some status,
          ended_at := some (some now),
          note := some (some ("Stopped by user (exit=" ++
            pyShowExit exitAfterTerm ++ ").")) }
      (true, { history := (storeUpdate σ.history id c).2,
               registry := regPop σ.registry id })
  | _, _ => (false, σ)

/-- Status chosen by the reconciliation loop for an exited process. -/
def pollStatus (stopping : Bool) (ec : Int) : String :=
  if stopping then "stopped" else if ec = 0 then "completed" else "failed"

/-- One iteration of the loop body of _poll_active_port_forwards for the
snapshot entry e; pollRes gives process.poll() for each pid (none = still
running). -/
def pollEntry (now : String) (pollRes : Nat → Option Int) (σ : AppState)
    (e : String × Runtime) : AppState :=
  if e.2.simulated || e.2.process.isNone then σ
  else
    match e.2.process with
    | none => σ
    | some pid =>
      match pollRes pid with
      | none => σ
      | some ec =>
        let c :=
          { Changes.empty with
            status := some (pollStatus e.2.stopping ec),
            ended_at := some (some now),
            note := some (some ("Process ended (exit=" ++
              toString ec ++ ").")) }
        { history := (storeUpdate σ.history e.1 c).2,
          registry := regPop σ.registry e.1 }

/-- _poll_active_port_forwards: iterate the loop body over a snapshot of the
registry items. -/
def pollActive (now : String) (pollRes : Nat → Option Int) (σ : AppState) :
    AppState :=
  σ.registry.foldl (pollEntry now pollRes) σ

/-- AwsTuiApp.start_port_forward.  The external command line is built by the
collaborator in aws_api.py and only recorded verbatim, so it is passed in as
command.  spawn is the outcome of subprocess.Popen: ok pid on success,
error message on OSError.  newId is the uuid4 hex for the created record;
now is create's utc_now() and nowEnd the later utc_now() of the
spawn-failure ended_at update. -/
def startPortForward (σ : AppState) (cliAvailable : Bool)
    (inst_id inst_name : String) (remote_port local_port : Int)
    (name command : String) (spawn : Except String Nat)
    (newId now nowEnd : String) : Option StoredRecord × AppState :=
  if !cliAvailable then
    let record := createRecord newId name inst_id inst_name remote_port
      local_port now "simulated-active" command
      (some ("AWS CLI unavailable; simulated entry."))
    (some record,
     { history := σ.history ++ [record],
       registry := regInsert σ.registry record.record_id
         ⟨record.record_id, record.instance_id, none, true, false⟩ })
  else
    match spawn with
    | Except.error err =>
      let record := createRecord newId name inst_id inst_name remote_port
        local_port now "failed" command
        (some ("Failed to start process: " ++ err))
      let c := { Changes.empty with ended_at := some (some nowEnd) }
      (none,
       { history := (storeUpdate (σ.history ++ [record]) record.record_id c).2,
         registry := σ.registry })
    | Except.ok pid =>
      let record := createRecord newId name inst_id inst_name remote_port
        local_port now "active" command none
      (some record,
       { history := σ.history ++ [record],
         registry := regInsert σ.registry record.record_id
           ⟨record.record_id, record.instance_id, some pid, false, false⟩ })

/-- shutdown_active_port_forwards: stop every key of a snapshot of the
registry; each stop reads its own clock and observes its own exit code. -/
def shutdownAll (σ : AppState) (nowF : String → String)
    (ecF : String → Option Int) : AppState :=
  (σ.registry.map Prod.fst).foldl
    (fun σ' id => (stopPortForward σ' id (nowF id) (ecF id)).2) σ

/-- _parse_port, after int(value) succeeded or failed: the argument is the
parsed integer when the text was a valid integer literal, none otherwise. -/
def parsePort (v : Option Int) : Option Int :=
  match v with
  | none => none
  | some port => if port < 1 || port > 65535 then none else some port

/-- The submit handler of PortForwardScreen: strip the name, refuse a blank
name, parse both ports, refuse when either is out of range, else dismiss
with the validated triple (which _on_port_forward_dismissed feeds to
start_port_forward). -/
def screenValidate (name : String) (remoteV localV : Option Int) :
    Option (String × Int × Int) :=
  let fn := pyStrip name
  if fn = "" then none
  else
    match parsePort remoteV, parsePort localV with
    | some r, some l => some (fn, r, l)
    | _, _ => none

/-- The prompt flow: the screen validates and only on success does
_on_port_forward_dismissed invoke start_port_forward; dismissal with None
performs no start at all. -/
def promptFlow (σ : AppState) (cliAvailable : Bool)
    (inst_id inst_name : String) (nameInput : String)
    (remoteV localV : Option Int) (command : String)
    (spawn : Except String Nat) (newId now nowEnd : String) :
    Option StoredRecord × AppState :=
  match screenValidate nameInput remoteV localV with
  | none => (none, σ)
  | some (fn, rp, lp) =>
    startPortForward σ cliAvailable inst_id inst_name rp lp fn command
      spawn newId now nowEnd

/-- The terminal statuses of the state machine. -/
def isTerminal (s : String) : Bool :=
  s = "stopped" || s = "completed" || s = "failed" ||
  s = "interrupted" || s = "simulated-stopped"

/-- The invariant the spec states for the registry: every registered
identifier has a history row and that row is non-terminal. -/
def registryConsistent (σ : AppState) : Bool :=
  σ.registry.all (fun e =>
    match findRow σ.history e.1 with
    | some r => !isTerminal r.status
    | none => false)

/-- Well-formed session-manager state: the registry invariant holds and the
registry's keys are unique (dict keys). -/
def wellFormed (σ : AppState) : Prop :=
  registryConsistent σ = true ∧ (σ.registry.map Prod.fst).Nodup

/-- The operations of the stop/reconcile fragment of the session manager:
a user stop (with its clock reading and post-termination exit code) and one
reconciliation tick (with its clock reading and the poll outcome of every
pid). -/
inductive SMOp where
  | stop (id now : String) (exitAfterTerm : Option Int)
  | tick (now : String) (pollRes : Nat → Option Int)

def applySMOp (σ : AppState) : SMOp → AppState
  | SMOp.stop id now ec => (stopPortForward σ id now ec).2
  | SMOp.tick now pollRes => pollActive now pollRes σ

def runOps (σ : AppState) (ops : List SMOp) : AppState :=
  ops.foldl applySMOp σ

/-! ## Helper lemmas about the store -/

theorem applyChanges_record_id (c : Changes) (r : StoredRecord) :
    (applyChanges c r).record_id = r.record_id := rfl

theorem findRow_map_update (h : List StoredRecord) (id j : String)
    (c : Changes) :
    findRow (h.map (fun r => if r.record_id = id then applyChanges c r else r)) j
      = (findRow h j).map
          (fun r => if r.record_id = id then applyChanges c r else r) := by
  induction h with
  | nil => rfl
  | cons a t ih =>
    have hrid : (if a.record_id = id then applyChanges c a else a).record_id
        = a.record_id := by
      by_cases h1 : a.record_id = id <;> simp [h1, applyChanges_record_id]
    by_cases ha : a.record_id = j
    · rw [List.map_cons]
      unfold findRow
      rw [List.find?_cons_of_pos _ (by simp only [hrid]; simp [ha]),
          List.find?_cons_of_pos _ (by simp [ha])]
      rfl
    · rw [List.map_cons]
      unfold findRow
      rw [List.find?_cons_of_neg _ (by simp only [hrid]; simp [ha]),
          List.find?_cons_of_neg _ (by simp [ha])]
      exact ih

theorem storeUpdate_frame (h : List StoredRecord) (id : String) (c : Changes)
    (j : String) (hj : j ≠ id) :
    findRow (storeUpdate h id c).2 j = findRow h j := by
  unfold storeUpdate
  by_cases h0 : c.noColumns
  · simp [h0]
  · by_cases h1 : h.any (fun r => r.record_id = id)
    · simp only [h0, h1, if_true, if_false, Bool.false_eq_true]
      rw [findRow_map_update]
      cases hf : findRow h j with
      | none => rfl
      | some r =>
        have hr : r.record_id = j := by
          have := List.find?_some hf
          simpa using this
        simp [hr, hj]
    · simp [h0, h1]

theorem storeUpdate_found (h : List StoredRecord) (id : String) (c : Changes)
    (r : StoredRecord) (hf : findRow h id = some r)
    (hc : c.noColumns = false) :
    findRow (storeUpdate h id c).2 id = some (applyChanges c r) := by
  have hr : r.record_id = id := by
    have := List.find?_some hf
    simpa using this
  have hmem : r ∈ h := List.mem_of_find?_eq_some hf
  have hany : h.any (fun x => x.record_id = id) = true := by
    rw [List.any_eq_true]
    exact ⟨r, hmem, by simpa using hr⟩
  unfold storeUpdate
  simp only [hc, hany, if_true, if_false, Bool.false_eq_true]
  rw [findRow_map_update, hf]
  simp [hr]

theorem storeUpdate_not_found (h : List StoredRecord) (id : String)
    (c : Changes) (hf : findRow h id = none) :
    storeUpdate h id c = (none, h) := by
  unfold storeUpdate
  by_cases h0 : c.noColumns
  · simp [h0, storeGet, hf]
  · have hany : h.any (fun x => x.record_id = id) = false := by
      rw [Bool.eq_false_iff]
      intro hcon
      rcases List.any_eq_true.mp hcon with ⟨x, hx, hpx⟩
      have : ¬ (x.record_id = id) := by
        have := List.find?_eq_none.mp hf x hx
        simpa using this
      exact this (by simpa using hpx)
    simp [h0, hany]

theorem storeGet_none_iff (h : List StoredRecord) (id : String) :
    storeGet h id = none ↔ findRow h id = none := by
  unfold storeGet
  cases findRow h id <;> simp

/-! ## Helper lemmas about the registry -/

theorem regFind_pop_self (reg : List (String × Runtime)) (id : String) :
    regFind (regPop reg id) id = none := by
  unfold regFind
  cases hf : (regPop reg id).find? (fun e => e.1 = id) with
  | none => rfl
  | some e =>
    have hmem : e ∈ regPop reg id := List.mem_of_find?_eq_some hf
    have hpe : e.1 = id := by simpa using List.find?_some hf
    have := (List.mem_filter.mp hmem).2
    simp [hpe] at this

theorem regFind_pop_ne (reg : List (String × Runtime)) (id j : String)
    (hj : j ≠ id) : regFind (regPop reg id) j = regFind reg j := by
  induction reg with
  | nil => rfl
  | cons a t ih =>
    by_cases h1 : a.1 = id
    · have h2 : ¬ (a.1 = j) := by
        rw [h1]
        exact fun hc => hj hc.symm
      have hq : ((!(a.1 = id : Bool)) = true) = False := by simp [h1]
      unfold regPop at *
      rw [List.filter_cons, if_neg (by simp [h1])]
      unfold regFind at *
      rw [List.find?_cons_of_neg _ (by simpa using h2)]
      exact ih
    · unfold regPop at *
      rw [List.filter_cons, if_pos (by simpa using h1)]
      by_cases h2 : a.1 = j
      · unfold regFind
        rw [List.find?_cons_of_pos _ (by simpa using h2),
            List.find?_cons_of_pos _ (by simpa using h2)]
      · unfold regFind at *
        rw [List.find?_cons_of_neg _ (by simpa using h2),
            List.find?_cons_of_neg _ (by simpa using h2)]
        exact ih

theorem regFind_mem (reg : List (String × Runtime)) (e : String × Runtime)
    (hmem : e ∈ reg) : ∃ rt, regFind reg e.1 = some rt := by
  unfold regFind
  cases hf : reg.find? (fun x => x.1 = e.1) with
  | none =>
    have hc := List.find?_eq_none.mp hf e hmem
    simp at hc
  | some x => exact ⟨x.2, rfl⟩

/-! ## Helper lemmas about stripping -/

theorem all_ws_of_stripList_eq_nil (l : List Char) (h : stripList l = []) :
    ∀ c ∈ l, c.isWhitespace = true := by
  unfold stripList at h
  have h1 : (l.dropWhile Char.isWhitespace).reverse.dropWhile Char.isWhitespace
      = [] := by
    simpa using h
  have h3 : ∀ c ∈ l.dropWhile Char.isWhitespace, c.isWhitespace = true := by
    intro c hc
    exact List.dropWhile_eq_nil_iff.mp h1 c (List.mem_reverse.mpr hc)
  intro c hc
  rw [← List.takeWhile_append_dropWhile Char.isWhitespace l] at hc
  rcases List.mem_append.mp hc with h4 | h4
  · exact List.mem_takeWhile_imp h4
  · exact h3 c h4

theorem stripList_ne_nil_of_mem (l : List Char) (c : Char) (hc : c ∈ l)
    (hw : c.isWhitespace = false) : stripList l ≠ [] := by
  intro h
  have := all_ws_of_stripList_eq_nil l h c hc
  rw [hw] at this
  exact Bool.false_ne_true this

theorem exists_not_ws_of_stripList_ne_nil (l : List Char)
    (h : stripList l ≠ []) : ∃ c ∈ stripList l, c.isWhitespace = false := by
  unfold stripList at *
  cases hd : (l.dropWhile Char.isWhitespace).reverse.dropWhile Char.isWhitespace
    with
  | nil => rw [hd] at h; simp at h
  | cons b t =>
    have hb : Char.isWhitespace b = false := by
      have hh := List.head?_dropWhile_not Char.isWhitespace
        (l.dropWhile Char.isWhitespace).reverse
      rw [hd] at hh
      simpa using hh
    exact ⟨b, by simp, hb⟩

theorem stripList_stripList_ne_nil (l : List Char) (h : stripList l ≠ []) :
    stripList (stripList l) ≠ [] := by
  rcases exists_not_ws_of_stripList_ne_nil l h with ⟨c, hc, hw⟩
  exact stripList_ne_nil_of_mem _ c hc hw

theorem pyStrip_eq_empty_iff (s : String) :
    pyStrip s = "" ↔ stripList s.toList = [] := by
  unfold pyStrip
  constructor
  · intro h
    have := congrArg String.data h
    simpa using this
  · intro h
    rw [h]

theorem pyStrip_pyStrip_ne_empty (s : String) (h : pyStrip s ≠ "") :
    pyStrip (pyStrip s) ≠ "" := by
  rw [Ne, pyStrip_eq_empty_iff] at *
  have hl : (pyStrip s).toList = stripList s.toList := rfl
  rw [hl]
  exact stripList_stripList_ne_nil _ h

theorem mem_f_defaultName (lp rp : Int) : 'f' ∈ (defaultName lp rp).toList := by
  unfold defaultName
  have hd : ("forward-" ++ toString lp ++ "-to-" ++ toString rp).data
      = "forward-".data ++ ((toString lp).data ++ ("-to-".data ++
        (toString rp).data)) := by
    simp [String.data_append]
  show 'f' ∈ ("forward-" ++ toString lp ++ "-to-" ++ toString rp).data
  rw [hd]
  apply List.mem_append.mpr
  left
  decide

theorem defaultName_ne_empty (lp rp : Int) : defaultName lp rp ≠ "" := by
  intro h
  have hm := mem_f_defaultName lp rp
  rw [h] at hm
  simp at hm

theorem pyStrip_defaultName_ne_empty (lp rp : Int) :
    pyStrip (defaultName lp rp) ≠ "" := by
  rw [Ne, pyStrip_eq_empty_iff]
  exact stripList_ne_nil_of_mem _ 'f' (mem_f_defaultName lp rp) (by decide)

theorem coerceForwardName_ne_blank (v : String) (lp rp : Int) :
    coerceForwardName v lp rp ≠ "" ∧
    pyStrip (coerceForwardName v lp rp) ≠ "" := by
  unfold coerceForwardName
  by_cases h : pyStrip v = ""
  · simp only [h, if_pos]
    exact ⟨defaultName_ne_empty lp rp, pyStrip_defaultName_ne_empty lp rp⟩
  · simp only [h, if_neg, if_false]
    exact ⟨h, pyStrip_pyStrip_ne_empty v h⟩

/-! ## Sample data for the concrete witnesses -/

/-- A non-terminal row, as created by a successful real start. -/
def rowActive : StoredRecord :=
  { record_id := "r1", forward_name := "fw", instance_id := "i-1",
    instance_name := "node-1", remote_port := 80, local_port := 8080,
    started_at := "t0", ended_at := none, status := "active",
    command := "cmd", note := none }

/-- A terminal row. -/
def rowStopped : StoredRecord :=
  { record_id := "r2", forward_name := "fw2", instance_id := "i-1",
    instance_name := "node-1", remote_port := 443, local_port := 8443,
    started_at := "t0", ended_at := some ("t1"), status := "stopped",
    command := "cmd2", note := some ("Stopped by user.") }

/-- A sample partial update supplying only status. -/
def sampleChanges : Changes :=
  { Changes.empty with status := some ("failed") }

/-! ## The claims -/

/-- C2: on store initialization, every record whose status is active or
simulated-active and whose ended_at is null is transitioned to interrupted
with a non-null ended_at and a note attached; records already terminal or
with a non-null ended_at are left exactly as they are by this startup
reconciliation (PortForwardHistoryStore._mark_unfinished_as_interrupted,
run by __init__ on every reopen). -/
theorem init_marks_unfinished_as_interrupted :
    (∀ (now : String) (h : List StoredRecord),
      (markUnfinishedAsInterrupted now h).length = h.length) ∧
    (∀ (now : String) (h : List StoredRecord) (i : Nat)
       (r r' : StoredRecord),
      h[i]? = some r →
      (markUnfinishedAsInterrupted now h)[i]? = some r' →
      (((r.status = "active" ∨ r.status = "simulated-active") ∧
          r.ended_at = none) →
        r' = { r with
               status := "interrupted", ended_at := some now,
               note := some ("Marked interrupted after app restart.") }) ∧
      ((isTerminal r.status = true ∨ r.ended_at ≠ none) → r' = r)) := by
  constructor
  · intro now h
    unfold markUnfinishedAsInterrupted
    exact List.length_map h _
  · intro now h i r r' hi hi'
    unfold markUnfinishedAsInterrupted at hi'
    rw [List.getElem?_map, hi] at hi'
    have hr' : r' = if (r.status = "active" || r.status = "simulated-active")
        && r.ended_at.isNone then
        { r with
          status := "interrupted", ended_at := some now,
          note := some ("Marked interrupted after app restart.") }
      else r := by
      have := hi'
      simp only [Option.map_some'] at this
      exact (Option.some.injEq _ _ ▸ this.symm : _)
    constructor
    · rintro ⟨hst, hend⟩
      have hcond : ((r.status = "active" || r.status = "simulated-active")
          && r.ended_at.isNone) = true := by
        rcases hst with h1 | h1 <;> simp [h1, hend]
      rw [hr', if_pos hcond]
    · intro hterm
      have hcond : ((r.status = "active" || r.status = "simulated-active")
          && r.ended_at.isNone) = false := by
        rcases hterm with h1 | h1
        · have hor : (r.status = "active" ||
              r.status = "simulated-active") = false := by
            by_cases h2 : r.status = "active"
            · rw [h2] at h1
              exact absurd h1 (by decide)
            · by_cases h3 : r.status = "simulated-active"
              · rw [h3] at h1
                exact absurd h1 (by decide)
              · simp [h2, h3]
          simp [hor]
        · cases he : r.ended_at with
          | none => exact absurd he h1
          | some s => simp [he]
      rw [hr', if_neg (by simp [hcond])]

/-- Witness for C2 at a concrete store: an active row with no ended_at is
transitioned, a stopped row is untouched. -/
theorem init_marks_unfinished_as_interrupted_witness :
    ([rowActive, rowStopped][0]? = some rowActive) ∧
    ((markUnfinishedAsInterrupted ("t1") [rowActive, rowStopped])[0]? =
      some { rowActive with
             status := "interrupted", ended_at := some ("t1"),
             note := some ("Marked interrupted after app restart.") }) ∧
    ((markUnfinishedAsInterrupted ("t1") [rowActive, rowStopped])[1]? =
      some rowStopped) ∧
    (((rowActive.status = "active" ∨ rowActive.status = "simulated-active") ∧
        rowActive.ended_at = none) →
      { rowActive with
        status := "interrupted", ended_at := some ("t1"),
        note := some ("Marked interrupted after app restart.") } =
      { rowActive with
        status := "interrupted", ended_at := some ("t1"),
        note := some ("Marked interrupted after app restart.") }) ∧
    ((isTerminal rowStopped.status = true ∨ rowStopped.ended_at ≠ none) →
      rowStopped = rowStopped) := by
  refine ⟨by decide, by decide, by decide, ?_, ?_⟩
  · exact (init_marks_unfinished_as_interrupted.2 ("t1")
      [rowActive, rowStopped] 0 rowActive _ (by decide) (by decide)).1
  · intro _
    exact ((init_marks_unfinished_as_interrupted.2 ("t1")
      [rowActive, rowStopped] 1 rowStopped rowStopped (by decide)
      (by decide)).2 (Or.inl (by decide)))

/-- C8: update applies only the supplied fields and leaves every field not
named untouched; it can never change the record identifier, even when one
is supplied as a change (record_id is filtered out by the allowed set); for
an identifier that does not exist it returns none and modifies no row; rows
with a different identifier are never touched. -/
theorem update_partial_fields_frame :
    (∀ (c : Changes) (r : StoredRecord) (x : String),
      c.record_id = some x → (applyChanges c r).record_id = r.record_id) ∧
    (∀ (c : Changes) (r : StoredRecord),
      (c.forward_name = none →
        (applyChanges c r).forward_name = r.forward_name) ∧
      (c.instance_id = none →
        (applyChanges c r).instance_id = r.instance_id) ∧
      (c.instance_name = none →
        (applyChanges c r).instance_name = r.instance_name) ∧
      (c.remote_port = none →
        (applyChanges c r).remote_port = r.remote_port) ∧
      (c.local_port = none → (applyChanges c r).local_port = r.local_port) ∧
      (c.started_at = none → (applyChanges c r).started_at = r.started_at) ∧
      (c.ended_at = none → (applyChanges c r).ended_at = r.ended_at) ∧
      (c.status = none → (applyChanges c r).status = r.status) ∧
      (c.command = none → (applyChanges c r).command = r.command) ∧
      (c.note = none → (applyChanges c r).note = r.note)) ∧
    (∀ (c : Changes) (r : StoredRecord),
      (∀ v, c.forward_name = some v → (applyChanges c r).forward_name = v) ∧
      (∀ v, c.ended_at = some v → (applyChanges c r).ended_at = v) ∧
      (∀ v, c.status = some v → (applyChanges c r).status = v) ∧
      (∀ v, c.note = some v → (applyChanges c r).note = v)) ∧
    (∀ (h : List StoredRecord) (id : String) (c : Changes)
       (r : StoredRecord),
      findRow h id = some r → c.noColumns = false →
      findRow (storeUpdate h id c).2 id = some (applyChanges c r)) ∧
    (∀ (h : List StoredRecord) (id : String) (c : Changes) (j : String),
      j ≠ id → findRow (storeUpdate h id c).2 j = findRow h j) ∧
    (∀ (h : List StoredRecord) (id : String) (c : Changes),
      findRow h id = none → storeUpdate h id c = (none, h)) := by
  refine ⟨fun c r x _ => rfl,
    fun c r => ⟨?_, ?_, ?_, ?_, ?_, ?_, ?_, ?_, ?_, ?_⟩,
    fun c r => ⟨?_, ?_, ?_, ?_⟩,
    storeUpdate_found, storeUpdate_frame, storeUpdate_not_found⟩
  all_goals intro hn
  all_goals try (intro hv)
  all_goals simp_all [applyChanges]

/-- Witness for C8 at a concrete store: a status-only update leaves the
identifier and the untouched fields alone, and an unknown identifier is a
no-op returning none. -/
theorem update_partial_fields_frame_witness :
    (sampleChanges.record_id = none ∨ sampleChanges.record_id ≠ none) ∧
    (sampleChanges.note = none →
      (applyChanges sampleChanges rowActive).note = rowActive.note) ∧
    (findRow [rowActive] ("missing") = none) ∧
    (storeUpdate [rowActive] ("missing") sampleChanges = (none, [rowActive])) := by
  refine ⟨Or.inl (by decide), ?_, by decide, ?_⟩
  · exact fun hn =>
      ((update_partial_fields_frame.2.1 sampleChanges rowActive).2.2.2.2.2.2.2.2.2 hn)
  · exact update_partial_fields_frame.2.2.2.2.2 [rowActive] ("missing")
      sampleChanges (by decide)

/-- A stop with no live runtime entry is a silent failure. -/
theorem stop_of_regFind_none (σ : AppState) (id now : String)
    (ec : Option Int) (h : regFind σ.registry id = none) :
    stopPortForward σ id now ec = (false, σ) := by
  unfold stopPortForward
  rw [h]

/-- A stop with no history record is a silent failure. -/
theorem stop_of_no_record (σ : AppState) (id now : String) (ec : Option Int)
    (h : findRow σ.history id = none) :
    stopPortForward σ id now ec = (false, σ) := by
  unfold stopPortForward
  rw [(storeGet_none_iff σ.history id).mpr h]
  cases regFind σ.registry id <;> rfl

/-- A successful stop removes the registry entry for its identifier. -/
theorem stop_registry_after_success (σ : AppState) (id now : String)
    (ec : Option Int) (h : (stopPortForward σ id now ec).1 = true) :
    (stopPortForward σ id now ec).2.registry = regPop σ.registry id := by
  cases hre : regFind σ.registry id with
  | none =>
    rw [stop_of_regFind_none σ id now ec hre] at h
    simp at h
  | some rt =>
    cases hg : storeGet σ.history id with
    | none =>
      unfold stopPortForward at h
      rw [hre, hg] at h
      simp at h
    | some r0 =>
      unfold stopPortForward
      rw [hre, hg]
      by_cases hb : (rt.simulated || rt.process.isNone) = true <;>
        simp [hb]

/-- A stop never touches another identifier's history row or registry
entry. -/
theorem stop_frame (σ : AppState) (id now : String) (ec : Option Int)
    (k : String) (hk : k ≠ id) :
    findRow (stopPortForward σ id now ec).2.history k = findRow σ.history k ∧
    regFind (stopPortForward σ id now ec).2.registry k
      = regFind σ.registry k := by
  cases hre : regFind σ.registry id with
  | none => rw [stop_of_regFind_none σ id now ec hre]; exact ⟨rfl, rfl⟩
  | some rt =>
    cases hg : storeGet σ.history id with
    | none =>
      unfold stopPortForward
      rw [hre, hg]
      exact ⟨rfl, rfl⟩
    | some r0 =>
      unfold stopPortForward
      rw [hre, hg]
      dsimp only
      by_cases hb : (rt.simulated || rt.process.isNone) = true
      · rw [if_pos hb]
        exact ⟨storeUpdate_frame _ _ _ _ hk, regFind_pop_ne _ _ _ hk⟩
      · rw [if_neg hb]
        exact ⟨storeUpdate_frame _ _ _ _ hk, regFind_pop_ne _ _ _ hk⟩

/-- One reconciliation step never touches another identifier's history row
or registry entry. -/
theorem pollEntry_frame (now : String) (pollRes : Nat → Option Int)
    (σ : AppState) (e : String × Runtime) (k : String) (hk : k ≠ e.1) :
    findRow (pollEntry now pollRes σ e).history k = findRow σ.history k ∧
    regFind (pollEntry now pollRes σ e).registry k = regFind σ.registry k := by
  unfold pollEntry
  by_cases hb : (e.2.simulated || e.2.process.isNone) = true
  · rw [if_pos hb]
    exact ⟨rfl, rfl⟩
  · rw [if_neg hb]
    cases hp : e.2.process with
    | none =>
      exact absurd (by rw [hp]; simp) hb
    | some pid =>
      dsimp only
      cases hres : pollRes pid with
      | none =>
        exact ⟨rfl, rfl⟩
      | some ec =>
        exact ⟨storeUpdate_frame _ _ _ _ hk, regFind_pop_ne _ _ _ hk⟩

/-- C3: Stop is idempotent: after a Stop that succeeded the registry entry
is gone, so a second Stop on the same identifier returns false and leaves
the state exactly as the first call left it; likewise any Stop with no
live runtime entry is a no-op returning false. -/
theorem stop_idempotent :
    (∀ (σ : AppState) (id now now' : String) (ec ec' : Option Int),
      (stopPortForward σ id now ec).1 = true →
      stopPortForward (stopPortForward σ id now ec).2 id now' ec'
        = (false, (stopPortForward σ id now ec).2)) ∧
    (∀ (σ : AppState) (id now : String) (ec : Option Int),
      regFind σ.registry id = none →
      stopPortForward σ id now ec = (false, σ)) := by
  constructor
  · intro σ id now now' ec ec' h
    apply stop_of_regFind_none
    rw [stop_registry_after_success σ id now ec h]
    exact regFind_pop_self _ _
  · exact stop_of_regFind_none

/-- Witness for C3 at a concrete state: stopping a live real forward
succeeds, and a second stop is a no-op. -/
theorem stop_idempotent_witness :
    ((stopPortForward ⟨[rowActive], [("r1", ⟨"r1", "i-1", some 5, false,
        false⟩)]⟩ ("r1") ("t1") (some 0)).1 = true) ∧
    (stopPortForward (stopPortForward ⟨[rowActive], [("r1", ⟨"r1", "i-1",
        some 5, false, false⟩)]⟩ ("r1") ("t1") (some 0)).2 ("r1") ("t2")
        (some 0)
      = (false, (stopPortForward ⟨[rowActive], [("r1", ⟨"r1", "i-1", some 5,
          false, false⟩)]⟩ ("r1") ("t1") (some 0)).2)) := by
  refine ⟨by decide, ?_⟩
  exact stop_idempotent.1 ⟨[rowActive], [("r1", ⟨"r1", "i-1", some 5, false,
    false⟩)]⟩ ("r1") ("t1") ("t2") (some 0) (some 0) (by decide)

/-- C4: for a real (non-simulated) runtime entry whose process has exited,
one reconciliation step records stopped when the stop-requested flag is
set, completed when the flag is unset and the exit code is zero, failed
when the flag is unset and the exit code is non-zero; it sets ended_at,
attaches a note with the exit code and removes the registry entry.  In
particular a stop-flagged entry that exited with code 0 is recorded
stopped, never completed.  Simulated entries, and entries whose process
has not exited, are left untouched. -/
theorem poll_transitions :
    (∀ (now : String) (pollRes : Nat → Option Int) (σ : AppState)
       (id : String) (rt : Runtime) (pid : Nat) (ec : Int)
       (r : StoredRecord),
      rt.simulated = false → rt.process = some pid → pollRes pid = some ec →
      findRow σ.history id = some r →
      findRow (pollEntry now pollRes σ (id, rt)).history id =
        some { r with
               status := pollStatus rt.stopping ec,
               ended_at := some now,
               note := some ("Process ended (exit=" ++ toString ec
                 ++ ").") } ∧
      (pollEntry now pollRes σ (id, rt)).registry = regPop σ.registry id ∧
      pollStatus rt.stopping ec =
        (if rt.stopping then "stopped"
         else if ec = 0 then "completed" else "failed") ∧
      (rt.stopping = true → pollStatus rt.stopping ec = "stopped")) ∧
    (∀ (now : String) (pollRes : Nat → Option Int) (σ : AppState)
       (id : String) (rt : Runtime), rt.simulated = true →
      pollEntry now pollRes σ (id, rt) = σ) ∧
    (∀ (now : String) (pollRes : Nat → Option Int) (σ : AppState)
       (id : String) (rt : Runtime) (pid : Nat),
      rt.process = some pid → pollRes pid = none →
      pollEntry now pollRes σ (id, rt) = σ) := by
  refine ⟨?_, ?_, ?_⟩
  · intro now pollRes σ id rt pid ec r hsim hproc hpoll hfr
    have hcond : ((id, rt).2.simulated || (id, rt).2.process.isNone)
        = false := by
      show (rt.simulated || rt.process.isNone) = false
      rw [hsim, hproc]
      rfl
    unfold pollEntry
    rw [if_neg (by rw [hcond]; exact Bool.false_ne_true)]
    dsimp only
    rw [hproc]
    dsimp only
    rw [hpoll]
    dsimp only
    refine ⟨?_, rfl, rfl, fun hs => by simp [pollStatus, hs]⟩
    have hupd := storeUpdate_found σ.history id
      { Changes.empty with
        status := some (pollStatus rt.stopping ec),
        ended_at := some (some now),
        note := some (some ("Process ended (exit=" ++ toString ec ++ ").")) }
      r hfr rfl
    rw [hupd]
    rfl
  · intro now pollRes σ id rt hsim
    unfold pollEntry
    rw [if_pos (by show (rt.simulated || _) = true; rw [hsim]; rfl)]
  · intro now pollRes σ id rt pid hproc hpoll
    unfold pollEntry
    by_cases hb : ((id, rt).2.simulated || (id, rt).2.process.isNone) = true
    · rw [if_pos hb]
    · rw [if_neg hb]
      dsimp only
      rw [hproc]
      dsimp only
      rw [hpoll]

/-- Witness for C4: a stop-flagged real entry that exited with code 0 is
recorded stopped with ended_at and a note, and its registry entry is
removed. -/
theorem poll_transitions_witness :
    (findRow [rowActive] ("r1") = some rowActive) ∧
    (findRow (pollEntry ("t1") (fun p => if p = 5 then some 0 else none)
        ⟨[rowActive], [("r1", ⟨"r1", "i-1", some 5, false, true⟩)]⟩
        (("r1"), ⟨"r1", "i-1", some 5, false, true⟩)).history ("r1") =
      some { rowActive with
             status := pollStatus true 0,
             ended_at := some ("t1"),
             note := some ("Process ended (exit=" ++ toString (0 : Int)
               ++ ").") }) ∧
    pollStatus true 0 = "stopped" := by
  refine ⟨by decide, ?_, by decide⟩
  exact (poll_transitions.1 ("t1") (fun p => if p = 5 then some 0 else none)
    ⟨[rowActive], [("r1", ⟨"r1", "i-1", some 5, false, true⟩)]⟩ ("r1")
    ⟨"r1", "i-1", some 5, false, true⟩ 5 0 rowActive rfl rfl (by decide)
    (by decide)).1

/-- C6: after Stop runs the escalating termination protocol on a real
runtime entry, the final status is stopped exactly when the observed exit
code is zero, absent, or the negated graceful/forceful signal the protocol
sends (-SIGTERM or -SIGKILL), and failed for every other exit code;
ended_at is set and a note describing the stop and the observed exit code
is attached. -/
theorem stop_real_status_mapping :
    ∀ (σ : AppState) (id : String) (rt : Runtime) (pid : Nat)
      (now : String) (ec : Option Int) (r : StoredRecord),
      regFind σ.registry id = some rt → rt.simulated = false →
      rt.process = some pid → findRow σ.history id = some r →
      (stopPortForward σ id now ec).1 = true ∧
      findRow (stopPortForward σ id now ec).2.history id =
        some { r with
               status := stopStatus ec,
               ended_at := some now,
               note := some ("Stopped by user (exit=" ++ pyShowExit ec
                 ++ ").") } ∧
      (stopStatus ec = "stopped" ↔
        (ec = some 0 ∨ ec = none ∨ ec = some (-SIGTERM) ∨
         ec = some (-SIGKILL))) := by
  intro σ id rt pid now ec r hre hsim hproc hfr
  have hg : storeGet σ.history id = some (recordFromRow r) := by
    unfold storeGet
    rw [hfr]
    rfl
  have hcond : (rt.simulated || rt.process.isNone) = false := by
    rw [hsim, hproc]
    rfl
  have hiff : stopStatus ec = "stopped" ↔
      (ec = some 0 ∨ ec = none ∨ ec = some (-SIGTERM) ∨
       ec = some (-SIGKILL)) := by
    unfold stopStatus
    by_cases hb : (ec = some 0 || ec = none || ec = some (-SIGTERM)
        || ec = some (-SIGKILL)) = true
    · rw [if_pos hb]
      simp only [Bool.or_eq_true, decide_eq_true_eq] at hb
      constructor
      · intro _
        tauto
      · intro _
        rfl
    · rw [if_neg hb]
      simp only [Bool.or_eq_true, decide_eq_true_eq] at hb
      constructor
      · intro hcon
        exact absurd hcon (by decide)
      · intro hor
        exfalso
        apply hb
        tauto
  unfold stopPortForward
  rw [hre, hg]
  dsimp only
  rw [if_neg (by rw [hcond]; exact Bool.false_ne_true)]
  refine ⟨rfl, ?_, hiff⟩
  have hupd := storeUpdate_found σ.history id
    { Changes.empty with
      status := some (stopStatus ec),
      ended_at := some (some now),
      note := some (some ("Stopped by user (exit=" ++ pyShowExit ec
        ++ ").")) }
    r hfr rfl
  rw [hupd]
  rfl

/-- Witness for C6: a real entry whose process ends with -SIGTERM after the
protocol is recorded stopped with ended_at and the exit-code note. -/
theorem stop_real_status_mapping_witness :
    (regFind [("r1", ⟨"r1", "i-1", some 5, false, false⟩)] ("r1") =
      some ⟨"r1", "i-1", some 5, false, false⟩) ∧
    (findRow (stopPortForward ⟨[rowActive], [("r1", ⟨"r1", "i-1", some 5,
        false, false⟩)]⟩ ("r1") ("t1") (some (-15))).2.history ("r1") =
      some { rowActive with
             status := stopStatus (some (-15)),
             ended_at := some ("t1"),
             note := some ("Stopped by user (exit=" ++
               pyShowExit (some (-15)) ++ ").") }) ∧
    stopStatus (some (-15)) = "stopped" := by
  refine ⟨by decide, ?_, by decide⟩
  exact (stop_real_status_mapping ⟨[rowActive], [("r1", ⟨"r1", "i-1", some 5,
    false, false⟩)]⟩ ("r1") ⟨"r1", "i-1", some 5, false, false⟩ 5 ("t1")
    (some (-15)) rowActive (by decide) rfl rfl (by decide)).2.1

/-- Updating an identifier that appears only in a freshly appended row
rewrites exactly that row. -/
theorem map_update_id_of_not_found (h : List StoredRecord) (id : String)
    (c : Changes) (hf : findRow h id = none) :
    h.map (fun r => if r.record_id = id then applyChanges c r else r)
      = h := by
  induction h with
  | nil => rfl
  | cons a t ih =>
    have ha : ¬(a.record_id = id) := by
      have := List.find?_eq_none.mp hf a (by simp)
      simpa using this
    have ht : findRow t id = none := by
      unfold findRow at *
      rw [List.find?_cons_of_neg _ (by simpa using ha)] at hf
      exact hf
    rw [List.map_cons, if_neg ha, ih ht]

theorem storeUpdate_append_fresh (h : List StoredRecord)
    (rec : StoredRecord) (c : Changes)
    (hfresh : findRow h rec.record_id = none) (hc : c.noColumns = false) :
    (storeUpdate (h ++ [rec]) rec.record_id c).2
      = h ++ [applyChanges c rec] := by
  unfold storeUpdate
  rw [if_neg (by rw [hc]; exact Bool.false_ne_true)]
  have hany : (h ++ [rec]).any (fun r => r.record_id = rec.record_id)
      = true := by
    rw [List.any_eq_true]
    exact ⟨rec, by simp, by simp⟩
  rw [if_pos hany]
  dsimp only
  rw [List.map_append, map_update_id_of_not_found h rec.record_id c hfresh]
  simp

/-- C7: when spawning the external command fails, Start creates exactly one
new record with status failed, immediately sets its ended_at, attaches the
failure reason as a note, registers no runtime entry and returns none (and,
being a total function of the spawn outcome, never propagates the
failure). -/
theorem start_spawn_failure :
    ∀ (σ : AppState) (inst_id inst_name : String) (rp lp : Int)
      (name cmd err newId now nowEnd : String),
      findRow σ.history newId = none →
      startPortForward σ true inst_id inst_name rp lp name cmd
        (Except.error err) newId now nowEnd =
      (none,
       { history := σ.history ++
           [{ createRecord newId name inst_id inst_name rp lp now
                ("failed") cmd
                (some ("Failed to start process: " ++ err)) with
              ended_at := some nowEnd }],
         registry := σ.registry }) := by
  intro σ inst_id inst_name rp lp name cmd err newId now nowEnd hfresh
  unfold startPortForward
  rw [if_neg (by decide)]
  dsimp only
  rw [storeUpdate_append_fresh σ.history
    (createRecord newId name inst_id inst_name rp lp now ("failed") cmd
      (some ("Failed to start process: " ++ err)))
    { Changes.empty with ended_at := some (some nowEnd) } hfresh rfl]
  rfl

/-- Witness for C7: a concrete spawn failure on an empty store. -/
theorem start_spawn_failure_witness :
    (findRow [] ("id1") = none) ∧
    startPortForward ⟨[], []⟩ true ("i-1") ("node") 80 8080 ("fw") ("cmd")
      (Except.error ("boom")) ("id1") ("t0") ("t1") =
    (none,
     { history := [] ++
         [{ createRecord ("id1") ("fw") ("i-1") ("node") 80 8080 ("t0")
              ("failed") ("cmd")
              (some ("Failed to start process: " ++ "boom")) with
            ended_at := some ("t1") }],
       registry := [] }) := by
  refine ⟨by decide, ?_⟩
  exact start_spawn_failure ⟨[], []⟩ ("i-1") ("node") 80 8080 ("fw") ("cmd")
    ("boom") ("id1") ("t0") ("t1") (by decide)

/-- C10: when a registry entry exists for an identifier but the history
store has no record for it, Stop returns false without changing any state
(so the process is never signalled and the entry is not removed), and the
orphaned entry survives ShutdownAll's per-entry stops while the identifier
still has no record. -/
theorem orphan_registry_persists :
    ∀ (σ : AppState) (id : String) (rt : Runtime) (now : String)
      (ec : Option Int) (nowF : String → String)
      (ecF : String → Option Int),
      regFind σ.registry id = some rt → findRow σ.history id = none →
      stopPortForward σ id now ec = (false, σ) ∧
      regFind (shutdownAll σ nowF ecF).registry id = some rt ∧
      findRow (shutdownAll σ nowF ecF).history id = none := by
  intro σ id rt now ec nowF ecF hre hfr
  have key : ∀ (ids : List String) (σ' : AppState),
      regFind σ'.registry id = some rt →
      findRow σ'.history id = none →
      regFind ((ids.foldl (fun s j => (stopPortForward s j (nowF j)
        (ecF j)).2) σ')).registry id = some rt ∧
      findRow ((ids.foldl (fun s j => (stopPortForward s j (nowF j)
        (ecF j)).2) σ')).history id = none := by
    intro ids
    induction ids with
    | nil => exact fun σ' h1 h2 => ⟨h1, h2⟩
    | cons j t ih =>
      intro σ' h1 h2
      refine ih (stopPortForward σ' j (nowF j) (ecF j)).2 ?_ ?_
      · by_cases hj : j = id
        · subst hj
          rw [stop_of_no_record σ' j (nowF j) (ecF j) h2]
          exact h1
        · exact ((stop_frame σ' j (nowF j) (ecF j) id
            (fun hc => hj hc.symm)).2).trans h1
      · by_cases hj : j = id
        · subst hj
          rw [stop_of_no_record σ' j (nowF j) (ecF j) h2]
          exact h2
        · exact ((stop_frame σ' j (nowF j) (ecF j) id
            (fun hc => hj hc.symm)).1).trans h2
  exact ⟨stop_of_no_record σ id now ec hfr,
    key (σ.registry.map Prod.fst) σ hre hfr⟩

/-- Witness for C10: a concrete orphaned entry without any history row. -/
theorem orphan_registry_persists_witness :
    (regFind [("r1", ⟨"r1", "i-1", some 5, false, false⟩)] ("r1") =
      some ⟨"r1", "i-1", some 5, false, false⟩) ∧
    (findRow [] ("r1") = none) ∧
    stopPortForward ⟨[], [("r1", ⟨"r1", "i-1", some 5, false, false⟩)]⟩
      ("r1") ("t") none =
      (false, ⟨[], [("r1", ⟨"r1", "i-1", some 5, false, false⟩)]⟩) ∧
    regFind (shutdownAll ⟨[], [("r1", ⟨"r1", "i-1", some 5, false,
      false⟩)]⟩ (fun _ => "t") (fun _ => none)).registry ("r1") =
      some ⟨"r1", "i-1", some 5, false, false⟩ := by
  refine ⟨by decide, by decide, ?_⟩
  have h := orphan_registry_persists
    ⟨[], [("r1", ⟨"r1", "i-1", some 5, false, false⟩)]⟩ ("r1")
    ⟨"r1", "i-1", some 5, false, false⟩ ("t") none (fun _ => "t")
    (fun _ => none) (by decide) (by decide)
  exact ⟨h.1, h.2.1⟩

theorem parsePort_some (x : Option Int) (p : Int)
    (h : parsePort x = some p) : x = some p ∧ 1 ≤ p ∧ p ≤ 65535 := by
  cases x with
  | none => simp [parsePort] at h
  | some v =>
    unfold parsePort at h
    dsimp only at h
    by_cases hb : (v < 1 || v > 65535) = true
    · rw [if_pos hb] at h
      exact absurd h (by simp)
    · rw [if_neg hb] at h
      simp only [Bool.or_eq_true, decide_eq_true_eq] at hb
      have hv : v = p := by simpa using h
      subst hv
      exact ⟨rfl, by omega, by omega⟩

/-- C5 counterexample: start_port_forward called directly with remote port
0 (out of range) performs no validation: it returns a record, appends a
history row with remote_port 0 and registers a live process entry. -/
theorem start_no_validation_counterexample :
    ((startPortForward ⟨[], []⟩ true ("i-1") ("node") 0 8080 ("fw") ("cmd")
      (Except.ok 42) ("id1") ("t0") ("t0")).1.isSome = true) ∧
    ((startPortForward ⟨[], []⟩ true ("i-1") ("node") 0 8080 ("fw") ("cmd")
      (Except.ok 42) ("id1") ("t0") ("t0")).2.history.length = 1) ∧
    ((startPortForward ⟨[], []⟩ true ("i-1") ("node") 0 8080 ("fw") ("cmd")
      (Except.ok 42) ("id1") ("t0") ("t0")).2.history.all
        (fun r => r.remote_port = 0 && r.status = "active") = true) ∧
    (regFind (startPortForward ⟨[], []⟩ true ("i-1") ("node") 0 8080 ("fw")
      ("cmd") (Except.ok 42) ("id1") ("t0") ("t0")).2.registry ("id1")
      = some ⟨"id1", "i-1", some 42, false, false⟩) := by
  decide

/-- C5 amended: range validation happens in the port-forward prompt, not
in Start: _parse_port accepts exactly the integers 1..65535, the screen
submits only when both ports parse in range, and on an out-of-range port
the prompt flow rejects the request without invoking Start — no record
is created and no process is spawned (state unchanged). -/
theorem prompt_port_validation :
    (∀ (v : Int), parsePort (some v) =
      (if 1 ≤ v ∧ v ≤ 65535 then some v else none)) ∧
    (parsePort none = none) ∧
    (∀ (name : String) (rv lv : Option Int) (fn : String) (rp lp : Int),
      screenValidate name rv lv = some (fn, rp, lp) →
      (1 ≤ rp ∧ rp ≤ 65535) ∧ (1 ≤ lp ∧ lp ≤ 65535) ∧
      rv = some rp ∧ lv = some lp) ∧
    (∀ (σ : AppState) (cli : Bool) (inst_id inst_name name : String)
       (rv lv : Option Int) (cmd : String) (spawn : Except String Nat)
       (newId now nowEnd : String) (v : Int),
      rv = some v → (v < 1 ∨ v > 65535) →
      promptFlow σ cli inst_id inst_name name rv lv cmd spawn newId now
        nowEnd = (none, σ)) := by
  have hparse : ∀ (v : Int), parsePort (some v) =
      (if 1 ≤ v ∧ v ≤ 65535 then some v else none) := by
    intro v
    unfold parsePort
    by_cases h : 1 ≤ v ∧ v ≤ 65535
    · have h1 : ¬(v < 1) := by omega
      have h2 : ¬(v > 65535) := by omega
      simp [h1, h2, h]
    · have hvv : v < 1 ∨ 65535 < v := by omega
      rw [if_neg h]
      rcases hvv with h1 | h1 <;> simp [h1]
  refine ⟨hparse, rfl, ?_, ?_⟩
  · intro name rv lv fn rp lp hv
    unfold screenValidate at hv
    by_cases hn : pyStrip name = ""
    · rw [if_pos hn] at hv
      exact absurd hv (by simp)
    · rw [if_neg hn] at hv
      cases hr : parsePort rv with
      | none => rw [hr] at hv; exact absurd hv (by simp)
      | some r =>
        cases hl : parsePort lv with
        | none => rw [hr, hl] at hv; exact absurd hv (by simp)
        | some l =>
          rw [hr, hl] at hv
          have hrl : r = rp ∧ l = lp := by
            have := hv
            simp only [Option.some.injEq, Prod.mk.injEq] at this
            exact ⟨this.2.1, this.2.2⟩
          rcases hrl with ⟨hr2, hl2⟩
          subst hr2
          subst hl2
          have h1 := parsePort_some rv r hr
          have h2 := parsePort_some lv l hl
          exact ⟨⟨h1.2.1, h1.2.2⟩, ⟨h2.2.1, h2.2.2⟩, h1.1, h2.1⟩
  · intro σ cli inst_id inst_name name rv lv cmd spawn newId now nowEnd v
      hrv hout
    unfold promptFlow
    have hsv : screenValidate name rv lv = none := by
      unfold screenValidate
      by_cases hn : pyStrip name = ""
      · rw [if_pos hn]
      · rw [if_neg hn]
        have hp : parsePort rv = none := by
          rw [hrv, hparse v, if_neg (by omega)]
        rw [hp]
    rw [hsv]

/-- Witness for the amended C5: a remote-port value of 0 is rejected by
the prompt flow and Start is never invoked. -/
theorem prompt_port_validation_witness :
    ((some (0 : Int)) = some 0 ∧ ((0 : Int) < 1 ∨ (0 : Int) > 65535)) ∧
    promptFlow ⟨[], []⟩ true ("i-1") ("node") ("fw") (some 0) (some 8080)
      ("cmd") (Except.ok 42) ("id1") ("t0") ("t0") = (none, ⟨[], []⟩) := by
  refine ⟨⟨rfl, by decide⟩, ?_⟩
  exact prompt_port_validation.2.2.2 ⟨[], []⟩ true ("i-1") ("node") ("fw")
    (some 0) (some 8080) ("cmd") (Except.ok 42) ("id1") ("t0") ("t0") 0 rfl
    (by decide)

/-! ## The registry invariant and terminal-status stability (C1) -/

theorem wf_regFind (σ : AppState) (j : String) (rt : Runtime)
    (hcons : registryConsistent σ = true)
    (hreg : regFind σ.registry j = some rt) :
    ∃ r, findRow σ.history j = some r ∧ isTerminal r.status = false := by
  unfold regFind at hreg
  cases hf : σ.registry.find? (fun e => e.1 = j) with
  | none =>
    rw [hf] at hreg
    exact absurd hreg (by simp)
  | some e0 =>
    have hmem : e0 ∈ σ.registry := List.mem_of_find?_eq_some hf
    have he0 : e0.1 = j := by simpa using List.find?_some hf
    have hall := List.all_eq_true.mp
      (by unfold registryConsistent at hcons; exact hcons) e0 hmem
    rw [he0] at hall
    cases hfr : findRow σ.history j with
    | none =>
      rw [hfr] at hall
      exact absurd hall (by simp)
    | some r =>
      rw [hfr] at hall
      exact ⟨r, rfl, by simpa using hall⟩

theorem terminal_id_not_registered (σ : AppState) (k : String)
    (r : StoredRecord) (hcons : registryConsistent σ = true)
    (hfr : findRow σ.history k = some r)
    (hterm : isTerminal r.status = true) :
    regFind σ.registry k = none := by
  cases hreg : regFind σ.registry k with
  | none => rfl
  | some rt =>
    obtain ⟨r', hr', hterm'⟩ := wf_regFind σ k rt hcons hreg
    rw [hfr] at hr'
    have hrr := Option.some.inj hr'
    rw [← hrr, hterm] at hterm'
    exact absurd hterm' (by simp)

/-- A stop is either a silent failure or a terminalising update plus
removal of its own registry key. -/
theorem stop_cases (σ : AppState) (id now : String) (ec : Option Int) :
    stopPortForward σ id now ec = (false, σ) ∨
    ∃ (c : Changes), c.noColumns = false ∧
      stopPortForward σ id now ec =
        (true, { history := (storeUpdate σ.history id c).2,
                 registry := regPop σ.registry id }) := by
  cases hre : regFind σ.registry id with
  | none => exact Or.inl (stop_of_regFind_none σ id now ec hre)
  | some rt =>
    cases hg : storeGet σ.history id with
    | none =>
      left
      unfold stopPortForward
      rw [hre, hg]
    | some r0 =>
      right
      unfold stopPortForward
      rw [hre, hg]
      dsimp only
      by_cases hb : (rt.simulated || rt.process.isNone) = true
      · rw [if_pos hb]
        refine ⟨_, ?_, rfl⟩
        rfl
      · rw [if_neg hb]
        refine ⟨_, ?_, rfl⟩
        rfl

/-- One reconciliation step is either a no-op or a terminalising update
plus removal of its own registry key. -/
theorem pollEntry_disj (now : String) (pr : Nat → Option Int)
    (σ : AppState) (e : String × Runtime) :
    pollEntry now pr σ e = σ ∨
    ∃ (c : Changes), c.noColumns = false ∧
      pollEntry now pr σ e =
        { history := (storeUpdate σ.history e.1 c).2,
          registry := regPop σ.registry e.1 } := by
  unfold pollEntry
  by_cases hb : (e.2.simulated || e.2.process.isNone) = true
  · rw [if_pos hb]
    exact Or.inl rfl
  · rw [if_neg hb]
    cases hp : e.2.process with
    | none => exact absurd (by rw [hp]; simp) hb
    | some pid =>
      dsimp only
      cases hres : pr pid with
      | none => exact Or.inl rfl
      | some ec =>
        right
        refine ⟨_, ?_, rfl⟩
        rfl

theorem stop_registry_sublist (σ : AppState) (id now : String)
    (ec : Option Int) :
    ((stopPortForward σ id now ec).2.registry).Sublist σ.registry := by
  rcases stop_cases σ id now ec with h | ⟨c, _, h⟩
  · rw [h]
  · rw [h]
    exact List.filter_sublist _

theorem pollEntry_registry_sublist (now : String) (pr : Nat → Option Int)
    (σ : AppState) (e : String × Runtime) :
    ((pollEntry now pr σ e).registry).Sublist σ.registry := by
  rcases pollEntry_disj now pr σ e with h | ⟨c, _, h⟩
  · rw [h]
  · rw [h]
    exact List.filter_sublist _

theorem foldl_pollEntry_registry_sublist (now : String)
    (pr : Nat → Option Int) :
    ∀ (es : List (String × Runtime)) (σ : AppState),
      ((es.foldl (pollEntry now pr) σ).registry).Sublist σ.registry := by
  intro es
  induction es with
  | nil => exact fun σ => List.Sublist.refl _
  | cons e t ih =>
    intro σ
    exact (ih (pollEntry now pr σ e)).trans
      (pollEntry_registry_sublist now pr σ e)

theorem stop_preserves_wf (σ : AppState) (id now : String)
    (ec : Option Int) (hwf : wellFormed σ) :
    wellFormed (stopPortForward σ id now ec).2 := by
  obtain ⟨hcons, hnd⟩ := hwf
  rcases stop_cases σ id now ec with h | ⟨c, hc, h⟩
  · rw [h]
    exact ⟨hcons, hnd⟩
  · rw [h]
    constructor
    · unfold registryConsistent
      rw [List.all_eq_true]
      intro e' he'
      have hmem := List.mem_filter.mp he'
      have hne : e'.1 ≠ id := by simpa using hmem.2
      obtain ⟨rt0, hrt0⟩ := regFind_mem σ.registry e' hmem.1
      obtain ⟨r', hr', hterm'⟩ := wf_regFind σ e'.1 rt0 hcons hrt0
      have hfr' : findRow (storeUpdate σ.history id c).2 e'.1 = some r' :=
        (storeUpdate_frame σ.history id c e'.1 hne).trans hr'
      rw [hfr']
      simpa using hterm'
    · exact ((List.filter_sublist _).map Prod.fst).nodup hnd

theorem stop_stable (σ : AppState) (id now : String) (ec : Option Int)
    (k : String) (r : StoredRecord) (hwf : wellFormed σ)
    (hfr : findRow σ.history k = some r)
    (hterm : isTerminal r.status = true) :
    findRow (stopPortForward σ id now ec).2.history k = some r := by
  by_cases hk : k = id
  · subst hk
    rw [stop_of_regFind_none σ k now ec
      (terminal_id_not_registered σ k r hwf.1 hfr hterm)]
    exact hfr
  · exact ((stop_frame σ id now ec k hk).1).trans hfr

/-- The reconciliation fold over a snapshot whose entries all point at
non-terminal rows preserves every terminal row, and any key still
registered afterwards was registered before with its history row
untouched. -/
theorem pollFold_inv (now : String) (pr : Nat → Option Int) :
    ∀ (es : List (String × Runtime)) (σ : AppState),
      (∀ e ∈ es, ∀ r, findRow σ.history e.1 = some r →
        isTerminal r.status = false) →
      (es.map Prod.fst).Nodup →
      (∀ k r, findRow σ.history k = some r → isTerminal r.status = true →
        findRow (es.foldl (pollEntry now pr) σ).history k = some r) ∧
      (∀ k rt, regFind (es.foldl (pollEntry now pr) σ).registry k
          = some rt →
        regFind σ.registry k = some rt ∧
        findRow (es.foldl (pollEntry now pr) σ).history k
          = findRow σ.history k) := by
  intro es
  induction es with
  | nil => exact fun σ _ _ => ⟨fun k r h _ => h, fun k rt h => ⟨h, rfl⟩⟩
  | cons e t ih =>
    intro σ hok hnd
    rw [List.map_cons, List.nodup_cons] at hnd
    rcases pollEntry_disj now pr σ e with hskip | ⟨c, hc, hupd⟩
    · have heq : (e :: t).foldl (pollEntry now pr) σ
          = t.foldl (pollEntry now pr) σ := by
        show t.foldl (pollEntry now pr) (pollEntry now pr σ e) = _
        rw [hskip]
      rw [heq]
      exact ih σ (fun e' he' => hok e' (List.mem_cons_of_mem e he')) hnd.2
    · have heq : (e :: t).foldl (pollEntry now pr) σ
          = t.foldl (pollEntry now pr)
              { history := (storeUpdate σ.history e.1 c).2,
                registry := regPop σ.registry e.1 } := by
        show t.foldl (pollEntry now pr) (pollEntry now pr σ e) = _
        rw [hupd]
      rw [heq]
      have hok1 : ∀ e' ∈ t, ∀ r,
          findRow (storeUpdate σ.history e.1 c).2 e'.1 = some r →
          isTerminal r.status = false := by
        intro e' he' r hr
        have hne : e'.1 ≠ e.1 := by
          intro hcon
          exact hnd.1 (hcon ▸ List.mem_map_of_mem Prod.fst he')
        rw [storeUpdate_frame σ.history e.1 c e'.1 hne] at hr
        exact hok e' (List.mem_cons_of_mem e he') r hr
      obtain ⟨ihstab, ihreg⟩ := ih
        { history := (storeUpdate σ.history e.1 c).2,
          registry := regPop σ.registry e.1 } hok1 hnd.2
      constructor
      · intro k r hfr hterm
        have hke : k ≠ e.1 := by
          intro hcon
          have hnt := hok e (List.mem_cons_self e t) r (hcon ▸ hfr)
          rw [hterm] at hnt
          exact absurd hnt (by simp)
        apply ihstab k r _ hterm
        exact (storeUpdate_frame σ.history e.1 c k hke).trans hfr
      · intro k rt hreg
        obtain ⟨h1, h2⟩ := ihreg k rt hreg
        have hke : k ≠ e.1 := by
          intro hcon
          rw [hcon, regFind_pop_self] at h1
          exact absurd h1 (by simp)
        rw [regFind_pop_ne σ.registry e.1 k hke] at h1
        refine ⟨h1, ?_⟩
        exact h2.trans (storeUpdate_frame σ.history e.1 c k hke)

theorem pollActive_preserves (now : String) (pr : Nat → Option Int)
    (σ : AppState) (hwf : wellFormed σ) :
    wellFormed (pollActive now pr σ) ∧
    (∀ k r, findRow σ.history k = some r → isTerminal r.status = true →
      findRow (pollActive now pr σ).history k = some r) := by
  obtain ⟨hcons, hnd⟩ := hwf
  have hok : ∀ e ∈ σ.registry, ∀ r, findRow σ.history e.1 = some r →
      isTerminal r.status = false := by
    intro e he r hr
    obtain ⟨rt0, hrt0⟩ := regFind_mem σ.registry e he
    obtain ⟨r', hr', hterm'⟩ := wf_regFind σ e.1 rt0 hcons hrt0
    rw [hr'] at hr
    rw [← Option.some.inj hr]
    exact hterm'
  obtain ⟨hstab, hreg⟩ := pollFold_inv now pr σ.registry σ hok hnd
  refine ⟨⟨?_, ?_⟩, hstab⟩
  · unfold registryConsistent
    rw [List.all_eq_true]
    intro e' he'
    obtain ⟨rt0, hrt0⟩ := regFind_mem _ e' he'
    obtain ⟨h1, h2⟩ := hreg e'.1 rt0 hrt0
    obtain ⟨r', hr', hterm'⟩ := wf_regFind σ e'.1 rt0 hcons h1
    have hfr' : findRow (pollActive now pr σ).history e'.1 = some r' :=
      h2.trans hr'
    rw [hfr']
    simpa using hterm'
  · exact (((foldl_pollEntry_registry_sublist now pr σ.registry σ).map
      Prod.fst).nodup hnd)

theorem smop_preserves (σ : AppState) (op : SMOp) (hwf : wellFormed σ) :
    wellFormed (applySMOp σ op) ∧
    (∀ k r, findRow σ.history k = some r → isTerminal r.status = true →
      findRow (applySMOp σ op).history k = some r) := by
  cases op with
  | stop id now ec =>
    exact ⟨stop_preserves_wf σ id now ec hwf,
      fun k r hfr hterm => stop_stable σ id now ec k r hwf hfr hterm⟩
  | tick now pr =>
    obtain ⟨h1, h2⟩ := pollActive_preserves now pr σ hwf
    exact ⟨h1, h2⟩

/-- C1: in a well-formed state (every registered identifier has a
non-terminal history row, registry keys unique — the invariant of §3 of
the spec, re-established by every operation), once a record carries a
terminal status (stopped, completed, failed, interrupted,
simulated-stopped) no sequence of Stop and reconciliation-tick operations
ever changes that row again: any late-arriving stop or reconciliation
update for its identifier is a silent no-op. -/
theorem terminal_records_stable :
    ∀ (ops : List SMOp) (σ : AppState) (id : String) (r : StoredRecord),
      wellFormed σ → findRow σ.history id = some r →
      isTerminal r.status = true →
      findRow (runOps σ ops).history id = some r ∧
      wellFormed (runOps σ ops) := by
  intro ops
  induction ops with
  | nil => exact fun σ id r hwf hfr _ => ⟨hfr, hwf⟩
  | cons op t ih =>
    intro σ id r hwf hfr hterm
    obtain ⟨hwf', hstab⟩ := smop_preserves σ op hwf
    exact ih (applySMOp σ op) id r hwf' (hstab id r hfr hterm) hterm

/-- Witness for C1: a terminal row survives a stop aimed at it, a stop of
a live forward and a reconciliation tick, in a concrete well-formed
state. -/
theorem terminal_records_stable_witness :
    (wellFormed ⟨[rowActive, rowStopped], [("r1", ⟨"r1", "i-1", some 5,
      false, false⟩)]⟩ ∧
     findRow [rowActive, rowStopped] ("r2") = some rowStopped ∧
     isTerminal rowStopped.status = true) ∧
    findRow (runOps ⟨[rowActive, rowStopped], [("r1", ⟨"r1", "i-1", some 5,
      false, false⟩)]⟩
      [SMOp.stop ("r2") ("t2") (some 0),
       SMOp.stop ("r1") ("t3") (some 0),
       SMOp.tick ("t4") (fun _ => some 0)]).history ("r2")
      = some rowStopped := by
  have hwf : wellFormed ⟨[rowActive, rowStopped], [("r1", ⟨"r1", "i-1",
      some 5, false, false⟩)]⟩ := by
    constructor
    · decide
    · simp
  refine ⟨⟨hwf, by decide, by decide⟩, ?_⟩
  exact (terminal_records_stable
    [SMOp.stop ("r2") ("t2") (some 0),
     SMOp.stop ("r1") ("t3") (some 0),
     SMOp.tick ("t4") (fun _ => some 0)]
    ⟨[rowActive, rowStopped], [("r1", ⟨"r1", "i-1", some 5, false,
      false⟩)]⟩ ("r2") rowStopped hwf (by decide) (by decide)).1

/-- C9: creating a record with a blank or whitespace-only forward name
stores forward-{local_port}-to-{remote_port}; the same defaulting is
applied on every read (_record_from_row calls _coerce_forward_name), so no
record returned by get, list_for_instance or list_all ever has a blank
(empty or whitespace-only) forward name. -/
theorem forward_name_defaulting :
    (∀ (newId name inst_id inst_name : String) (rp lp : Int)
       (now status cmd : String) (note : Option String),
      pyStrip name = "" →
      (createRecord newId name inst_id inst_name rp lp now status cmd
        note).forward_name = defaultName lp rp) ∧
    (∀ (h : List StoredRecord) (id : String) (r : StoredRecord),
      storeGet h id = some r →
      r.forward_name ≠ "" ∧ pyStrip r.forward_name ≠ "") ∧
    (∀ (h : List StoredRecord) (inst : String) (r : StoredRecord),
      r ∈ listForInstance h inst →
      r.forward_name ≠ "" ∧ pyStrip r.forward_name ≠ "") ∧
    (∀ (h : List StoredRecord) (r : StoredRecord),
      r ∈ listAll h →
      r.forward_name ≠ "" ∧ pyStrip r.forward_name ≠ "") := by
  have hread : ∀ (r0 : StoredRecord),
      (recordFromRow r0).forward_name ≠ "" ∧
      pyStrip (recordFromRow r0).forward_name ≠ "" := by
    intro r0
    show coerceForwardName r0.forward_name r0.local_port r0.remote_port ≠ ""
      ∧ _ ≠ ""
    exact coerceForwardName_ne_blank _ _ _
  refine ⟨?_, ?_, ?_, ?_⟩
  · intro newId name inst_id inst_name rp lp now status cmd note hblank
    unfold createRecord
    simp [hblank]
  · intro h id r hr
    unfold storeGet at hr
    rcases Option.map_eq_some'.mp hr with ⟨r0, _, hr0⟩
    rw [← hr0]
    exact hread r0
  · intro h inst r hr
    unfold listForInstance at hr
    rcases List.mem_map.mp hr with ⟨r0, _, hr0⟩
    rw [← hr0]
    exact hread r0
  · intro h r hr
    unfold listAll at hr
    rcases List.mem_map.mp hr with ⟨r0, _, hr0⟩
    rw [← hr0]
    exact hread r0

/-- Witness for C9: a blank name with local port 8080 and remote port 80 is
stored as forward-8080-to-80. -/
theorem forward_name_defaulting_witness :
    pyStrip ("   ") = "" ∧
    (createRecord ("r9") ("   ") ("i-1") ("n") 80 8080 ("t0") ("active")
      ("cmd") none).forward_name = defaultName 8080 80 ∧
    defaultName 8080 80 = "forward-8080-to-80" := by
  refine ⟨by decide, ?_, by decide⟩
  exact forward_name_defaulting.1 ("r9") ("   ") ("i-1") ("n") 80 8080
    ("t0") ("active") ("cmd") none (by decide)

end ATui
